import Mathlib

/-!
Verification development for the sshca repository (github.com/ratorx/sshca).

The Go sources are shallowly embedded: byte slices become lists of
characters, methods become Lean functions, external effects (file reads
and writes, the sshd validator subprocess, the ssh library parser, the
ssh-keygen subprocess, operator input) become explicit parameters that
record the outcome of the corresponding call, and the concurrency of
Server.SignPublicKey is modelled by an explicit interleaving relation.
Each definition carries a comment pointing at the Go source it embeds.
-/

/-- Go byte slices (the repository only ever handles textual data). -/
abbrev Bytes := List Char

/-- Line segmentation of a byte string. Go regexps compiled with the
multi-line flag anchor the two markers at the start of the text, after
every newline byte, at the end of the text and before every newline
byte; those segments are exactly the fields of splitting on the newline
character (including a final empty segment when the text ends in a
newline). -/
def splitNl (b : Bytes) : List Bytes :=
  b.splitOn '\n'

/-- Rejoining line segments with newline separators. -/
def joinNl (ls : List Bytes) : Bytes :=
  List.intercalate ['\n'] ls

/-- Model of bytes.TrimRight(b, "\n"): drop every trailing newline byte. -/
def trimNlRight (b : Bytes) : Bytes :=
  (b.reverse.dropWhile (fun c => c = '\n')).reverse

theorem joinNl_splitNl (b : Bytes) : joinNl (splitNl b) = b :=
  @List.intercalate_splitOn Char b '\n' _

theorem splitNl_joinNl (ls : List Bytes) (h : ∀ l ∈ ls, '\n' ∉ l)
    (hne : ls ≠ []) : splitNl (joinNl ls) = ls :=
  @List.splitOn_intercalate Char ls _ '\n' h hne

theorem splitNl_ne_nil (b : Bytes) : splitNl b ≠ [] := by
  simp only [splitNl, List.splitOn]
  exact List.splitOnP_ne_nil _ _

theorem splitNl_nil : splitNl [] = [[]] := rfl

theorem splitNl_cons (c : Char) (cs : Bytes) :
    splitNl (c :: cs) =
      if c = '\n' then [] :: splitNl cs
      else (splitNl cs).modifyHead (List.cons c) := by
  simp only [splitNl, List.splitOn, List.splitOnP_cons, beq_iff_eq]

theorem newline_not_mem_of_mem_splitNl {b l : Bytes} (h : l ∈ splitNl b) :
    '\n' ∉ l := by
  induction b generalizing l with
  | nil =>
    rw [splitNl_nil] at h
    simp only [List.mem_singleton] at h
    subst h
    simp
  | cons c cs ih =>
    rw [splitNl_cons] at h
    by_cases hc : c = '\n'
    · rw [if_pos hc] at h
      rcases List.mem_cons.mp h with h1 | h2
      · subst h1; simp
      · exact ih h2
    · rw [if_neg hc] at h
      obtain ⟨hd, tl, hsplit⟩ := List.exists_cons_of_ne_nil (splitNl_ne_nil cs)
      rw [hsplit] at h
      simp only [List.modifyHead] at h
      rcases List.mem_cons.mp h with h1 | h2
      · subst h1
        intro hmem
        rcases List.mem_cons.mp hmem with h3 | h4
        · exact hc h3.symm
        · exact ih (hsplit ▸ List.mem_cons_self hd tl) h4
      · exact ih (hsplit ▸ List.mem_cons_of_mem hd h2)

theorem joinNl_pair (x y : Bytes) : joinNl [x, y] = x ++ '\n' :: y := by
  simp [joinNl, List.intercalate]

/-! ## Package sshd: the transactional configuration Modifier
Embedded from the sshd package source (modification, Modifier.Set,
Modifier.SetUnique, modification.Apply, Modifier.testConfig,
Modifier.Commit). -/

/-- A queued SSHD config modification. The Go struct stores a compiled
regexp; every regexp the package ever compiles has the shape
(?m)^#?K V.*$ (from Set) or (?m)^#?K.*$ (from SetUnique) with K and V
metacharacter-quoted literals. For newline-free K and V such a pattern
matches the text exactly at the full span of every line that begins with
the quoted literal text, optionally preceded by a single hash, so the
compiled regexp is carried here as its induced per-line Boolean matcher. -/
structure modification where
  LineMatch : Bytes → Bool
  Key : Bytes
  Value : Bytes

/-- Per-line matcher induced by the Set regexp (?m)^#?key value.*$ : the
line starts with the literal text key ++ " " ++ value, optionally
preceded by one hash character. -/
def setLineMatch (key value : Bytes) (line : Bytes) : Bool :=
  (key ++ ' ' :: value).isPrefixOf line
    || ('#' :: (key ++ ' ' :: value)).isPrefixOf line

/-- Per-line matcher induced by the SetUnique regexp (?m)^#?key.*$ . -/
def uniqueLineMatch (key : Bytes) (line : Bytes) : Bool :=
  key.isPrefixOf line || ('#' :: key).isPrefixOf line

/-- modification.Apply from the sshd package. If the regexp matches
anywhere, ReplaceAllLiteral rewrites every matched span (a full line)
with the literal "key value"; otherwise the appended form is
bytes.Join([TrimRight(b, newline), "key value"], newline). -/
def modification.Apply (m : modification) (b : Bytes) : Bytes :=
  let toAppend := m.Key ++ ' ' :: m.Value
  if (splitNl b).any m.LineMatch then
    joinNl ((splitNl b).map (fun l => if m.LineMatch l then toAppend else l))
  else
    joinNl [trimNlRight b, toAppend]

/-- Modifier from the sshd package: a config path plus the queue of
pending modifications (nil in a fresh value). -/
structure Modifier where
  ConfigPath : String
  modifications : List modification

/-- Modifier.Set: queue a modification whose regexp matches a line with
exactly this key and value (optionally commented). -/
def Modifier.Set (s : Modifier) (key value : Bytes) : Modifier :=
  { s with modifications :=
      s.modifications ++ [{ LineMatch := setLineMatch key value, Key := key, Value := value }] }

/-- Modifier.SetUnique: queue a modification whose regexp matches any
line with this key (optionally commented) regardless of value. -/
def Modifier.SetUnique (s : Modifier) (key value : Bytes) : Modifier :=
  { s with modifications :=
      s.modifications ++ [{ LineMatch := uniqueLineMatch key, Key := key, Value := value }] }

/-- Errors produced by Modifier.Commit, one per return site. -/
inductive CommitError where
  | readFailed
  | writeFailed
  | verifyFailed
  | verifyAndRestoreFailed
deriving DecidableEq, Repr

/-- Observable outcome of one Commit call: the returned error (none for
nil), the file contents at ConfigPath afterwards, the modification queue
afterwards, whether any WriteFile call was issued for the new content,
and whether the external validator (testConfig) was invoked. -/
structure CommitOutcome where
  err : Option CommitError
  file : Bytes
  mods : List modification
  wrote : Bool
  validated : Bool

/-- Modifier.Commit from the sshd package. External effects are supplied
explicitly: original is the current file content, readable records
whether the initial ReadFile succeeds, writeOk whether the WriteFile of
the new content succeeds, restoreOk whether the rollback WriteFile
succeeds, and validator is the verdict of testConfig (running sshd -t
and scanning its stderr for the two known host-key failure substrings)
as a function of the file content it sees. A failed WriteFile is
modelled as leaving the file unchanged. -/
def Modifier.Commit (s : Modifier) (original : Bytes) (readable : Bool)
    (writeOk restoreOk : Bool) (validator : Bytes → Bool) : CommitOutcome :=
  if !readable then
    { err := some CommitError.readFailed, file := original,
      mods := s.modifications, wrote := false, validated := false }
  else
    let final := s.modifications.foldl (fun b m => m.Apply b) original
    if final = original then
      { err := none, file := original,
        mods := s.modifications, wrote := false, validated := false }
    else if !writeOk then
      { err := some CommitError.writeFailed, file := original,
        mods := s.modifications, wrote := false, validated := false }
    else if validator final then
      { err := none, file := final,
        mods := [], wrote := true, validated := true }
    else if restoreOk then
      { err := some CommitError.verifyFailed, file := original,
        mods := s.modifications, wrote := true, validated := true }
    else
      { err := some CommitError.verifyAndRestoreFailed, file := final,
        mods := s.modifications, wrote := true, validated := true }

/-! ## Package ca: public keys (ca/utils.go, the PublicKey part)
The external ssh library parser (golang.org/x/crypto/ssh
ParseAuthorizedKey) and fingerprint function are abstract parameters of
the embedding. -/

/-- Model of the parsed form an ssh.PublicKey carries; the repository
only ever reads its algorithm name (Type) and hands it to the external
fingerprint function. -/
structure SSHKey where
  keyType : Bytes
deriving DecidableEq, Repr

/-- PublicKey from ca/utils.go: the parsed form (nil until parse
succeeds) plus the raw file-format bytes. -/
structure PublicKey where
  key : Option SSHKey
  Data : Bytes
deriving DecidableEq, Repr

/-- Errors surfaced by NewPublicKey: the wrapped ReadFile error or the
wrapped ssh.ParseAuthorizedKey error. -/
inductive KeyError where
  | readError
  | invalidKeyFormat
deriving DecidableEq, Repr

/-- PublicKey.parse from ca/utils.go: already-parsed values are returned
unchanged; otherwise ssh.ParseAuthorizedKey (the abstract lib parameter)
runs on Data and on success fills in the parsed form. The Go method
mutates its receiver, so the model returns the updated value together
with the optional error. -/
def PublicKey.parse (lib : Bytes → Option SSHKey) (p : PublicKey) :
    PublicKey × Option KeyError :=
  match p.key with
  | some _ => (p, none)
  | none =>
    match lib p.Data with
    | some k => ({ p with key := some k }, none)
    | none => (p, some KeyError.invalidKeyFormat)

/-- NewPublicKey from ca/utils.go. readResult is the outcome of the
ReadFile call (none for a read failure, in which case Go returns a nil
pointer and the read error). On readable data Go builds the
semi-initialized value, calls parse on it, and returns that value
together with the parse error: return publicKey, publicKey.parse(). -/
def NewPublicKey (lib : Bytes → Option SSHKey) (readResult : Option Bytes) :
    Option PublicKey × Option KeyError :=
  match readResult with
  | none => (none, some KeyError.readError)
  | some data =>
    let publicKey : PublicKey := { key := none, Data := data }
    match publicKey.parse lib with
    | (p, e) => (some p, e)

/-- PublicKey.Marshal from ca/utils.go: a copy of the raw bytes. -/
def PublicKey.Marshal (p : PublicKey) : Bytes :=
  p.Data

/-- PublicKey.mustParse from ca/utils.go: parse, panicking on error. A
panic is modelled as the error branch of Except, carrying the panic
message. -/
def PublicKey.mustParse (lib : Bytes → Option SSHKey) (p : PublicKey) :
    Except Bytes PublicKey :=
  match p.parse lib with
  | (p', none) => Except.ok p'
  | (_, some _) => Except.error "invalid uninitialized public key".data

/-- PublicKey.Type from ca/utils.go (named typeString here because Type
is a Lean keyword): mustParse, then the algorithm name of the parsed
key. -/
def PublicKey.typeString (lib : Bytes → Option SSHKey) (p : PublicKey) :
    Except Bytes Bytes :=
  (p.mustParse lib).map (fun p' => (p'.key.map SSHKey.keyType).getD [])

/-- PublicKey.Fingerprint from ca/utils.go: mustParse, then the external
ssh.FingerprintSHA256 (the abstract fp parameter) of the parsed key. -/
def PublicKey.fingerprintOf (lib : Bytes → Option SSHKey)
    (fp : SSHKey → Bytes) (p : PublicKey) : Except Bytes Bytes :=
  (p.mustParse lib).map (fun p' => (p'.key.map fp).getD [])

/-! ## Package ca: the signing server (ca source with Server, SignArgs) -/

/-- CertificateType is a bool in the source: true is HostCertificate,
false is UserCertificate. Its String method. -/
def certificateTypeString (ct : Bool) : Bytes :=
  if ct then "host".data else "user".data

/-- SignArgs from the ca server source. Over the gob RPC boundary only
the exported fields travel, so a decoded value always has
PublicKey.key = none. -/
structure SignArgs where
  Identity : Bytes
  CertificateType : Bool
  Principals : List Bytes
  PublicKey : PublicKey
deriving DecidableEq, Repr

/-- SignArgs.String from the ca server source (the source misspells
certficate; the typo is kept). Evaluating the format arguments calls
Type and Fingerprint on the public key, each of which runs mustParse, so
building the summary panics exactly when the key bytes do not parse. -/
def SignArgs.summary (lib : Bytes → Option SSHKey) (fp : SSHKey → Bytes)
    (args : SignArgs) : Except Bytes Bytes :=
  match args.PublicKey.typeString lib with
  | Except.error e => Except.error e
  | Except.ok t =>
    match args.PublicKey.fingerprintOf lib fp with
    | Except.error e => Except.error e
    | Except.ok f =>
      Except.ok ("make ".data ++ certificateTypeString args.CertificateType
        ++ " certficate for ".data ++ t
        ++ " key (fingerprint ".data ++ f
        ++ ") for ".data ++ List.intercalate [','] args.Principals)

/-- How fmt.Println renders one operand that implements Stringer. Per
the documented fmt contract on format errors, a panic raised by a String
method is recovered inside the fmt package and rendered as a
PANIC-decorated placeholder; it never propagates to the caller of
Println. -/
def fmtPrintlnValue (s : Except Bytes Bytes) : Bytes :=
  match s with
  | Except.ok text => text
  | Except.error msg => "%!v(PANIC=String method: ".data ++ msg ++ ")".data

/-- Error results of Server.SignPublicKey, one per return site. -/
inductive SignError where
  | confirmAborted
  | tempDirFailed
  | writeKeyFailed
  | signingFailed
  | certReadFailed
deriving DecidableEq, Repr

/-- Outcomes of the external effects one SignPublicKey call performs:
the operator input line read by confirmRequest (none for end of
stream), whether TempDir and the staging WriteFile succeed, whether the
ssh-keygen subprocess exits zero, and the readable contents of the
generated certificate file. -/
structure SignEnv where
  confirmLine : Option Bytes
  tempDirOk : Bool
  writeOk : Bool
  keygenOk : Bool
  certRead : Option Bytes
deriving DecidableEq, Repr

/-- Server from the ca server source (the sshKeygenLock is modelled
separately by the interleaving relation below). -/
structure Server where
  PrivateKeyPath : Bytes
  PublicKey : PublicKey
  SkipConfirmation : Bool
deriving DecidableEq, Repr

/-- Server.confirmRequest: skipped when SkipConfirmation is set; any
read line confirms; end of stream is the error case. -/
def Server.confirmRequest (ca : Server) (line : Option Bytes) :
    Option SignError :=
  if ca.SkipConfirmation then none
  else
    match line with
    | some _ => none
    | none => some SignError.confirmAborted

/-- Result of a SignPublicKey call: a typed error or the certificate
written into the reply. -/
inductive SignOutcome where
  | errored (e : SignError)
  | signed (certificate : PublicKey)
deriving DecidableEq, Repr

/-- Server.SignPublicKey from the ca server source, for a single call
(the lock is modelled separately). Returns what the call prints as the
request summary and its result; the result is wrapped in Except with
the error branch standing for an escaped Go panic. Step by step:
fmt.Println(args) renders the summary (total, because fmt recovers
String-method panics); confirmRequest may fail; TempDir, the staging
WriteFile (which writes args.PublicKey.Data and never parses), the
ssh-keygen run, and the certificate read each fail with their wrapped
error. No step can escape with a panic, so every branch is Except.ok. -/
def Server.SignPublicKey (lib : Bytes → Option SSHKey) (fp : SSHKey → Bytes)
    (ca : Server) (args : SignArgs) (env : SignEnv) :
    Bytes × Except Bytes SignOutcome :=
  let printed := fmtPrintlnValue (args.summary lib fp)
  match ca.confirmRequest env.confirmLine with
  | some e => (printed, Except.ok (SignOutcome.errored e))
  | none =>
    if !env.tempDirOk then
      (printed, Except.ok (SignOutcome.errored SignError.tempDirFailed))
    else if !env.writeOk then
      (printed, Except.ok (SignOutcome.errored SignError.writeKeyFailed))
    else if !env.keygenOk then
      (printed, Except.ok (SignOutcome.errored SignError.signingFailed))
    else
      match NewPublicKey lib env.certRead with
      | (some cert, none) => (printed, Except.ok (SignOutcome.signed cert))
      | (_, some _) => (printed, Except.ok (SignOutcome.errored SignError.certReadFailed))
      | (none, none) => (printed, Except.ok (SignOutcome.errored SignError.certReadFailed))

/-! ## RPCFlags (the cmd source with RPCFlags.Validate / MakeClient) -/

/-- The transport flag set shared by the client commands. -/
structure RPCFlags where
  Local : Bool
  CAPrivateKeyPath : String
  CAPublicKeyPath : String
  Remote : String
deriving DecidableEq, Repr

/-- Errors of RPCFlags.Validate, one per return site. -/
inductive RPCError where
  | bothLocalAndRemote
  | neitherLocalNorRemote
  | missingPrivateKeyPath
deriving DecidableEq, Repr

/-- RPCFlags.Validate from the cmd source: the three guard clauses in
source order. -/
def RPCFlags.Validate (r : RPCFlags) : Option RPCError :=
  if r.Local && !(r.Remote == "") then some RPCError.bothLocalAndRemote
  else if !r.Local && r.Remote == "" then some RPCError.neitherLocalNorRemote
  else if r.Local && r.CAPrivateKeyPath == "" then some RPCError.missingPrivateKeyPath
  else none

/-- The I/O a MakeClient call performs after validation: either building
the in-process pipe plus server goroutine (makeLocalClient) or dialling
the remote TCP address (makeRemoteClient). Before validation succeeds,
no action happens. -/
inductive ClientAction where
  | createLocalPipeServer
  | dialRemote (addr : String)
deriving DecidableEq, Repr

/-- RPCFlags.MakeClient from the cmd source: validate first and return
the validation error with no I/O performed; then branch on Local. The
two branch helpers are abstracted to the action they perform, since the
claims only concern the guard. -/
def RPCFlags.MakeClient (r : RPCFlags) : Option RPCError × List ClientAction :=
  match r.Validate with
  | some e => (some e, [])
  | none =>
    if r.Local then (none, [ClientAction.createLocalPipeServer])
    else (none, [ClientAction.dialRemote r.Remote])

/-! ## Concurrency model of Server.SignPublicKey
Two concurrent calls on one Server instance share the sshKeygenLock
mutex. Each call runs the body of Server.SignPublicKey; its program
counter positions are
  0 sshKeygenLock.Lock()            (blocks while the other call holds it)
  1 fmt.Println(args)
  2 confirmRequest()
  3 ioutil.TempDir
  4 PublicKey.WriteFile (staging)
  5 launch the ssh-keygen subprocess
  6 subprocess running (the step from 6 is its exit)
  7 read the certificate, fill the reply
  8 deferred sshKeygenLock.Unlock()  (runs on every exit path)
  9 returned.
Early error returns from positions 2 to 5 jump straight to the deferred
unlock at 8 (the model also allows an early return from the print and
post steps; extra behaviours only widen the claim being proved). -/
structure SignSt where
  pcA : Nat
  pcB : Nat
  owner : Option Bool
deriving DecidableEq, Repr

/-- One step of a single call (identified by t) of Server.SignPublicKey:
acquire the free mutex, advance through the body, return early to the
deferred unlock, or unlock. -/
inductive ThreadStep (t : Bool) : Nat → Option Bool → Nat → Option Bool → Prop where
  | lock : ThreadStep t 0 none 1 (some t)
  | advance (pc : Nat) (ow : Option Bool) (h1 : 1 ≤ pc) (h2 : pc ≤ 7) :
      ThreadStep t pc ow (pc + 1) ow
  | abort (pc : Nat) (ow : Option Bool) (h1 : 1 ≤ pc) (h2 : pc ≤ 7) :
      ThreadStep t pc ow 8 ow
  | unlock (ow : Option Bool) : ThreadStep t 8 ow 9 none

/-- Interleaving of the two calls: at each step one of them moves. -/
inductive SignStep : SignSt → SignSt → Prop where
  | left (pa pb pa' : Nat) (ow ow' : Option Bool) :
      ThreadStep false pa ow pa' ow' →
      SignStep ⟨pa, pb, ow⟩ ⟨pa', pb, ow'⟩
  | right (pa pb pb' : Nat) (ow ow' : Option Bool) :
      ThreadStep true pb ow pb' ow' →
      SignStep ⟨pa, pb, ow⟩ ⟨pa, pb', ow'⟩

/-- Both calls start before their Lock with the mutex free. -/
def signInit : SignSt := ⟨0, 0, none⟩

/-- States reachable by interleaving the two calls. -/
def SignReachable (s : SignSt) : Prop :=
  Relation.ReflTransGen SignStep signInit s

/-- Call t is inside its subprocess span: ssh-keygen launched, not yet
exited, hence attached to the service's interactive streams. -/
def subprocessRunning (s : SignSt) (t : Bool) : Prop :=
  (if t then s.pcB else s.pcA) = 6

/-- The lock-ownership invariant: a call whose program counter is inside
the locked span (from just after Lock up to its Unlock) owns the mutex. -/
def signInv (s : SignSt) : Prop :=
  (1 ≤ s.pcA ∧ s.pcA ≤ 8 → s.owner = some false) ∧
  (1 ≤ s.pcB ∧ s.pcB ≤ 8 → s.owner = some true)

theorem signInv_mk (pa pb : Nat) (ow : Option Bool) :
    signInv ⟨pa, pb, ow⟩ ↔
      ((1 ≤ pa ∧ pa ≤ 8 → ow = some false) ∧
       (1 ≤ pb ∧ pb ≤ 8 → ow = some true)) :=
  Iff.rfl

theorem signInv_init : signInv signInit := by
  rw [signInit, signInv_mk]
  constructor <;> (intro h; omega)

theorem signInv_preserved {s s' : SignSt} (hinv : signInv s)
    (hstep : SignStep s s') : signInv s' := by
  cases hstep with
  | left pa pb pa' ow ow' ht =>
    rw [signInv_mk] at hinv
    rw [signInv_mk]
    obtain ⟨hA, hB⟩ := hinv
    cases ht with
    | lock =>
      refine ⟨fun _ => rfl, fun h => ?_⟩
      exact absurd (hB h) (by simp)
    | advance pc ow h1 h2 =>
      exact ⟨fun h => hA ⟨by omega, by omega⟩, hB⟩
    | abort pc ow h1 h2 =>
      exact ⟨fun h => hA ⟨by omega, by omega⟩, hB⟩
    | unlock ow =>
      refine ⟨fun h => by omega, fun h => ?_⟩
      have h1 := hA ⟨by omega, by omega⟩
      have h2 := hB h
      rw [h1] at h2
      exact absurd h2 (by simp)
  | right pa pb pb' ow ow' ht =>
    rw [signInv_mk] at hinv
    rw [signInv_mk]
    obtain ⟨hA, hB⟩ := hinv
    cases ht with
    | lock =>
      refine ⟨fun h => ?_, fun _ => rfl⟩
      exact absurd (hA h) (by simp)
    | advance pc ow h1 h2 =>
      exact ⟨hA, fun h => hB ⟨by omega, by omega⟩⟩
    | abort pc ow h1 h2 =>
      exact ⟨hA, fun h => hB ⟨by omega, by omega⟩⟩
    | unlock ow =>
      refine ⟨fun h => ?_, fun h => by omega⟩
      have h1 := hB ⟨by omega, by omega⟩
      have h2 := hA h
      rw [h1] at h2
      exact absurd h2 (by simp)

theorem signInv_reachable {s : SignSt} (h : SignReachable s) : signInv s := by
  induction h with
  | refl => exact signInv_init
  | tail _ hstep ih => exact signInv_preserved ih hstep

/-! ## Helper lemmas about modification.Apply -/

/-- When the regexp matches nowhere, Apply trims trailing newlines and
appends the single key-value line behind one separator. -/
theorem apply_of_no_match (m : modification) (b : Bytes)
    (h : (splitNl b).any m.LineMatch = false) :
    m.Apply b = trimNlRight b ++ '\n' :: (m.Key ++ ' ' :: m.Value) := by
  simp only [modification.Apply, h, Bool.false_eq_true, if_false, joinNl_pair]

/-- When the regexp matches somewhere, Apply rewrites exactly the
matched lines, each with the verbatim key-value text, and keeps every
other line. -/
theorem splitNl_apply_of_match (m : modification) (b : Bytes)
    (hK : '\n' ∉ m.Key) (hV : '\n' ∉ m.Value)
    (hm : (splitNl b).any m.LineMatch = true) :
    splitNl (m.Apply b) =
      (splitNl b).map (fun l => if m.LineMatch l then m.Key ++ ' ' :: m.Value else l) := by
  have happ : m.Apply b =
      joinNl ((splitNl b).map (fun l => if m.LineMatch l then m.Key ++ ' ' :: m.Value else l)) := by
    simp only [modification.Apply, hm, if_true]
  rw [happ]
  apply splitNl_joinNl
  · intro l hl
    obtain ⟨l₀, hl₀, rfl⟩ := List.mem_map.mp hl
    by_cases hmatch : m.LineMatch l₀ = true
    · rw [if_pos hmatch]
      intro hcon
      rcases List.mem_append.mp hcon with hc1 | hc2
      · exact hK hc1
      · rcases List.mem_cons.mp hc2 with hc3 | hc4
        · exact absurd hc3 (by decide)
        · exact hV hc4
    · rw [if_neg hmatch]
      exact newline_not_mem_of_mem_splitNl hl₀
  · intro hc
    exact splitNl_ne_nil b (List.map_eq_nil_iff.mp hc)

/-! ## Claim theorems -/

/-- Claim C1: for a readable configuration file, when Commit writes
modified content (the composed result differs from the original and the
write succeeds) and the external validation then fails, Commit restores
the file to exactly its original bytes and returns an error, assuming
the restore write itself succeeds. -/
theorem commit_restores_on_validation_failure
    (s : Modifier) (original : Bytes) (validator : Bytes → Bool)
    (hchange : s.modifications.foldl (fun b m => m.Apply b) original ≠ original)
    (hfail : validator (s.modifications.foldl (fun b m => m.Apply b) original) = false) :
    (s.Commit original true true true validator).file = original ∧
    (s.Commit original true true true validator).err = some CommitError.verifyFailed := by
  unfold Modifier.Commit
  simp [hchange, hfail]

/-- Witness for C1 at a concrete input: queueing Set HostKey
nonexistent-path on the file "Port 22" and validating with a failing
validator leaves the original bytes in place and reports the
verification failure. -/
theorem commit_restores_on_validation_failure_witness :
    (((Modifier.mk "sshd_config" []).Set "HostKey".data "nonexistent-path".data).Commit
        "Port 22\n".data true true true (fun _ => false)).file = "Port 22\n".data ∧
    (((Modifier.mk "sshd_config" []).Set "HostKey".data "nonexistent-path".data).Commit
        "Port 22\n".data true true true (fun _ => false)).err = some CommitError.verifyFailed :=
  commit_restores_on_validation_failure _ _ _ (by decide) (by decide)

/-- Claim C2: when applying the queued modifications in order reproduces
the original bytes, Commit succeeds without writing and without invoking
the validator (and, as the code behaves, also leaves the queue in
place). -/
theorem commit_noop_when_identical
    (s : Modifier) (original : Bytes) (writeOk restoreOk : Bool)
    (validator : Bytes → Bool)
    (hid : s.modifications.foldl (fun b m => m.Apply b) original = original) :
    s.Commit original true writeOk restoreOk validator =
      { err := none, file := original, mods := s.modifications,
        wrote := false, validated := false } := by
  unfold Modifier.Commit
  simp [hid]

/-- Witness for C2 at a concrete input: Set Port 22 on a file already
containing exactly the line "Port 22". -/
theorem commit_noop_when_identical_witness :
    ((Modifier.mk "sshd_config" []).Set "Port".data "22".data).Commit
        "Port 22\n".data true true true (fun _ => true) =
      { err := none, file := "Port 22\n".data,
        mods := ((Modifier.mk "sshd_config" []).Set "Port".data "22".data).modifications,
        wrote := false, validated := false } :=
  commit_noop_when_identical _ _ true true _ (by decide)

/-- Counterexample to claim C8 as stated: a Commit call that returns
success does not always leave the modification queue empty. On the file
"Port 22" with the queued Set Port 22, the composed result is
byte-identical, Commit returns nil on the early no-op path, and the
queue still holds the one queued modification. -/
theorem commit_success_keeps_queue_counterexample :
    (((Modifier.mk "sshd_config" []).Set "Port".data "22".data).Commit
        "Port 22\n".data true true true (fun _ => true)).err = none ∧
    (((Modifier.mk "sshd_config" []).Set "Port".data "22".data).Commit
        "Port 22\n".data true true true (fun _ => true)).mods.length = 1 := by
  constructor
  · decide
  · decide

/-- Claim C8 as amended: the modification queue is cleared exactly by a
success that actually wrote the file; a no-op success and every error
path leave the queued modifications pending. -/
theorem commit_queue_lifecycle (s : Modifier) (original : Bytes)
    (readable writeOk restoreOk : Bool) (validator : Bytes → Bool) :
    (s.Commit original readable writeOk restoreOk validator).mods =
      if ((s.Commit original readable writeOk restoreOk validator).err.isNone
          && (s.Commit original readable writeOk restoreOk validator).wrote) then []
      else s.modifications := by
  cases readable with
  | false => simp [Modifier.Commit]
  | true =>
    by_cases h1 : s.modifications.foldl (fun b m => m.Apply b) original = original
    · simp [Modifier.Commit, h1]
    · cases writeOk with
      | false => simp [Modifier.Commit, h1]
      | true =>
        by_cases h2 : validator (s.modifications.foldl (fun b m => m.Apply b) original) = true
        · simp [Modifier.Commit, h1, h2]
        · cases restoreOk with
          | false => simp [Modifier.Commit, h1, h2]
          | true => simp [Modifier.Commit, h1, h2]

/-- Counterexample to claim C4 as stated: the modification queued by
Set Port 22 does not leave untouched every line using key Port with a
different value. The compiled pattern ends in dot-star, so the line
"Port 2222" (key Port, value 2222, unequal to 22) is matched and
rewritten to "Port 22": applying the queued modification to the file
"Port 2222" yields "Port 22", and the original line is gone. -/
theorem set_exact_match_counterexample :
    (((Modifier.mk "sshd_config" []).Set "Port".data "22".data).modifications.foldl
        (fun b m => m.Apply b) "Port 2222\n".data) = "Port 22\n".data ∧
    "Port 2222".data ∈ splitNl "Port 2222\n".data ∧
    "Port 2222".data ∉ splitNl "Port 22\n".data := by
  refine ⟨by decide, by decide, by decide⟩

/-- Claim C4 as amended: Set queues exactly the modification carrying
the matcher whose pattern is optional hash, then the literal text
key-space-value, then anything to the end of the line; applying it
replaces precisely the lines that matcher accepts (value matched as a
prefix of the line remainder, not exactly) with the verbatim key-value
text, and every line the matcher rejects, including lines with the same
key and a value not extending the given one, survives unchanged. -/
theorem set_match_lines (k v b : Bytes) (hk : '\n' ∉ k) (hv : '\n' ∉ v)
    (hm : (splitNl b).any (setLineMatch k v) = true) :
    (∀ s : Modifier, (s.Set k v).modifications =
      s.modifications ++ [{ LineMatch := setLineMatch k v, Key := k, Value := v }]) ∧
    splitNl (modification.Apply { LineMatch := setLineMatch k v, Key := k, Value := v } b) =
      (splitNl b).map (fun l => if setLineMatch k v l then k ++ ' ' :: v else l) ∧
    ∀ l ∈ splitNl b, setLineMatch k v l = false →
      l ∈ splitNl (modification.Apply { LineMatch := setLineMatch k v, Key := k, Value := v } b) := by
  have hchar : splitNl (modification.Apply { LineMatch := setLineMatch k v, Key := k, Value := v } b) =
      (splitNl b).map (fun l => if setLineMatch k v l then k ++ ' ' :: v else l) :=
    splitNl_apply_of_match _ b hk hv hm
  refine ⟨fun s => rfl, hchar, ?_⟩
  intro l hl hno
  rw [hchar]
  have heq : l = (fun l => if setLineMatch k v l then k ++ ' ' :: v else l) l := by
    show l = if setLineMatch k v l = true then k ++ ' ' :: v else l
    rw [if_neg (by simp [hno])]
  rw [heq]
  exact List.mem_map_of_mem _ hl

/-- Witness for C4 as amended, at the counterexample file: the
modification queued by Set Port 22 applied to "Port 2222" rewrites the
matching line and keeps the non-matching empty final segment. -/
theorem set_match_lines_witness :
    splitNl (modification.Apply
        { LineMatch := setLineMatch "Port".data "22".data,
          Key := "Port".data, Value := "22".data } "Port 2222\n".data) =
      (splitNl "Port 2222\n".data).map
        (fun l => if setLineMatch "Port".data "22".data l
          then "Port".data ++ ' ' :: "22".data else l) :=
  (set_match_lines "Port".data "22".data "Port 2222\n".data
    (by decide) (by decide) (by decide)).2.1

/-- Claim C5: from the file "Port 21", committing Set Port 22 produces
the two lines "Port 21" and an appended "Port 22", while committing
SetUnique Port 22 instead produces the single line "Port 22"; in
general a matched line's full span is replaced by the verbatim
key-value text, and when nothing matches the trailing newline run is
trimmed and exactly one key-value line is appended after one newline
separator. -/
theorem set_setUnique_apply_spec :
    ((((Modifier.mk "sshd_config" []).Set "Port".data "22".data).Commit
        "Port 21\n".data true true true (fun _ => true)).file = "Port 21\nPort 22".data ∧
      splitNl "Port 21\nPort 22".data = ["Port 21".data, "Port 22".data]) ∧
    (((Modifier.mk "sshd_config" []).SetUnique "Port".data "22".data).Commit
        "Port 21\n".data true true true (fun _ => true)).file = "Port 22\n".data ∧
    (∀ (m : modification) (b : Bytes), (splitNl b).any m.LineMatch = false →
      m.Apply b = trimNlRight b ++ '\n' :: (m.Key ++ ' ' :: m.Value)) ∧
    (∀ (m : modification) (b : Bytes), '\n' ∉ m.Key → '\n' ∉ m.Value →
      (splitNl b).any m.LineMatch = true →
      splitNl (m.Apply b) =
        (splitNl b).map (fun l => if m.LineMatch l then m.Key ++ ' ' :: m.Value else l)) := by
  refine ⟨⟨by decide, by decide⟩, by decide, ?_, ?_⟩
  · intro m b h
    exact apply_of_no_match m b h
  · intro m b hK hV hm
    exact splitNl_apply_of_match m b hK hV hm

/-- Witness for C5: the two concrete commit results, the no-match
formula at Set AcceptEnv EXAMPLE1 on a file without that pair, and the
match formula at SetUnique Port 23 on the file "Port 22". -/
theorem set_setUnique_apply_spec_witness :
    ((((Modifier.mk "sshd_config" []).Set "Port".data "22".data).Commit
        "Port 21\n".data true true true (fun _ => true)).file = "Port 21\nPort 22".data ∧
      splitNl "Port 21\nPort 22".data = ["Port 21".data, "Port 22".data]) ∧
    (((Modifier.mk "sshd_config" []).SetUnique "Port".data "22".data).Commit
        "Port 21\n".data true true true (fun _ => true)).file = "Port 22\n".data ∧
    modification.Apply
        { LineMatch := setLineMatch "AcceptEnv".data "EXAMPLE1".data,
          Key := "AcceptEnv".data, Value := "EXAMPLE1".data } "AcceptEnv EXAMPLE\n".data =
      trimNlRight "AcceptEnv EXAMPLE\n".data ++ '\n' ::
        ("AcceptEnv".data ++ ' ' :: "EXAMPLE1".data) ∧
    splitNl (modification.Apply
        { LineMatch := uniqueLineMatch "Port".data,
          Key := "Port".data, Value := "23".data } "Port 22\n".data) =
      (splitNl "Port 22\n".data).map
        (fun l => if uniqueLineMatch "Port".data l
          then "Port".data ++ ' ' :: "23".data else l) := by
  obtain ⟨ha, hb, hc, hd⟩ := set_setUnique_apply_spec
  exact ⟨ha, hb,
    hc { LineMatch := setLineMatch "AcceptEnv".data "EXAMPLE1".data,
         Key := "AcceptEnv".data, Value := "EXAMPLE1".data } "AcceptEnv EXAMPLE\n".data (by decide),
    hd { LineMatch := uniqueLineMatch "Port".data,
         Key := "Port".data, Value := "23".data } "Port 22\n".data
      (by decide) (by decide) (by decide)⟩

/-- Claim C3: whenever NewPublicKey succeeds on bytes b, marshalling the
resulting key returns exactly b, byte for byte. -/
theorem marshal_roundtrip (lib : Bytes → Option SSHKey) (b : Bytes)
    (p : PublicKey) (h : NewPublicKey lib (some b) = (some p, none)) :
    p.Marshal = b := by
  cases hk : lib b with
  | none =>
    simp only [NewPublicKey, PublicKey.parse, hk, Prod.mk.injEq] at h
    exact absurd h.2 (by simp)
  | some k =>
    simp only [NewPublicKey, PublicKey.parse, hk, Prod.mk.injEq, Option.some.injEq] at h
    rw [← h.1]
    rfl

/-- Witness for C3 at a concrete parseable key line. -/
theorem marshal_roundtrip_witness :
    NewPublicKey (fun _ => some { keyType := "ssh-ed25519".data })
        (some "ssh-ed25519 AAAA john\n".data) =
      (some { key := some { keyType := "ssh-ed25519".data },
              Data := "ssh-ed25519 AAAA john\n".data }, none) ∧
    PublicKey.Marshal
        { key := some { keyType := "ssh-ed25519".data },
          Data := "ssh-ed25519 AAAA john\n".data } = "ssh-ed25519 AAAA john\n".data :=
  ⟨rfl, marshal_roundtrip (fun _ => some { keyType := "ssh-ed25519".data })
    "ssh-ed25519 AAAA john\n".data _ rfl⟩

/-- Counterexample to claim C6 as stated: on unparseable bytes,
NewPublicKey does fail with the invalid-key-format error, but the value
returned alongside the error is not absent: it is the
partially-initialized key holding the raw bytes with no parsed form
(the Go code returns the semi-initialized pointer together with the
parse error instead of a nil pointer). -/
theorem newPublicKey_partial_value_counterexample :
    NewPublicKey (fun _ => none) (some "not a key".data) =
      (some { key := none, Data := "not a key".data },
        some KeyError.invalidKeyFormat) ∧
    (NewPublicKey (fun _ => none) (some "not a key".data)).1.isSome = true := by
  exact ⟨rfl, rfl⟩

/-- Claim C6 as amended: on bytes the library parser rejects,
NewPublicKey returns the invalid-key-format error, and the value
accompanying the error is exactly the partially-initialized key (raw
bytes retained, parsed form absent), which Go callers must discard
because of the non-nil error. -/
theorem newPublicKey_invalid_format (lib : Bytes → Option SSHKey)
    (data : Bytes) (h : lib data = none) :
    NewPublicKey lib (some data) =
      (some { key := none, Data := data }, some KeyError.invalidKeyFormat) := by
  simp only [NewPublicKey, PublicKey.parse, h]

/-- Witness for C6 as amended at concrete unparseable bytes. -/
theorem newPublicKey_invalid_format_witness :
    NewPublicKey (fun _ => none) (some "garbage line".data) =
      (some { key := none, Data := "garbage line".data },
        some KeyError.invalidKeyFormat) :=
  newPublicKey_invalid_format (fun _ => none) "garbage line".data rfl

/-- Claim C7: Validate accepts exactly the flag combinations with
exactly one of local and remote selected and, for local, a non-empty
private-key path; every violating combination is rejected, and a
rejected combination makes MakeClient return the configuration error
before any I/O action is performed. -/
theorem rpcFlags_validate_spec (r : RPCFlags) :
    (r.Validate = none ↔
      ((r.Local = true ↔ r.Remote = "") ∧
       (r.Local = true → r.CAPrivateKeyPath ≠ ""))) ∧
    (∀ e, r.Validate = some e → r.MakeClient = (some e, [])) := by
  constructor
  · unfold RPCFlags.Validate
    cases hl : r.Local <;> by_cases hr : r.Remote = "" <;>
      by_cases hp : r.CAPrivateKeyPath = "" <;> simp [hl, hr, hp]
  · intro e he
    unfold RPCFlags.MakeClient
    rw [he]

/-- Witness for C7 at a violating combination (both transports
selected): the configuration error is returned and the action list is
empty. -/
theorem rpcFlags_validate_spec_witness :
    ({ Local := true, CAPrivateKeyPath := "/ca", CAPublicKeyPath := "",
       Remote := "host:1" } : RPCFlags).MakeClient =
      (some RPCError.bothLocalAndRemote, []) :=
  (rpcFlags_validate_spec _).2 RPCError.bothLocalAndRemote rfl

/-- Claim C9: in every state reachable by interleaving two concurrent
SignPublicKey calls on one Server instance, at most one call is inside
its ssh-keygen subprocess span; the sshKeygenLock serializes the spans,
so one call's subprocess completes before the other's begins. -/
theorem sign_subprocess_mutual_exclusion (s : SignSt)
    (h : SignReachable s) :
    ¬ (subprocessRunning s false ∧ subprocessRunning s true) := by
  rintro ⟨h1, h2⟩
  have hinv := signInv_reachable h
  obtain ⟨pa, pb, ow⟩ := s
  simp only [subprocessRunning] at h1 h2
  simp at h1 h2
  rw [signInv_mk] at hinv
  obtain ⟨hA, hB⟩ := hinv
  have e1 := hA ⟨by omega, by omega⟩
  have e2 := hB ⟨by omega, by omega⟩
  rw [e1] at e2
  exact absurd e2 (by simp)

/-- Witness for C9 at the initial state of the interleaving model. -/
theorem sign_subprocess_mutual_exclusion_witness :
    SignReachable signInit ∧
    ¬ (subprocessRunning signInit false ∧ subprocessRunning signInit true) :=
  ⟨Relation.ReflTransGen.refl,
    sign_subprocess_mutual_exclusion signInit Relation.ReflTransGen.refl⟩

/-- The summary line a SignPublicKey call prints is always the fmt
rendering of the SignArgs Stringer, whatever the later steps do. -/
theorem signPublicKey_fst (lib : Bytes → Option SSHKey) (fp : SSHKey → Bytes)
    (ca : Server) (args : SignArgs) (env : SignEnv) :
    (Server.SignPublicKey lib fp ca args env).1 =
      fmtPrintlnValue (args.summary lib fp) := by
  unfold Server.SignPublicKey
  cases ca.confirmRequest env.confirmLine with
  | some e => rfl
  | none =>
    cases env.tempDirOk with
    | false => rfl
    | true =>
      cases env.writeOk with
      | false => rfl
      | true =>
        cases env.keygenOk with
        | false => rfl
        | true =>
          rcases hN : NewPublicKey lib env.certRead with ⟨o1, o2⟩
          cases o1 <;> cases o2 <;> rfl

/-- A SignPublicKey call always returns through a normal branch: every
exit site returns a typed result, and the single panic site inside the
body (mustParse reached from the Stringer) is recovered by fmt, so no
panic escapes the call. -/
theorem signPublicKey_snd_ok (lib : Bytes → Option SSHKey) (fp : SSHKey → Bytes)
    (ca : Server) (args : SignArgs) (env : SignEnv) :
    ∃ o, (Server.SignPublicKey lib fp ca args env).2 = Except.ok o := by
  unfold Server.SignPublicKey
  cases ca.confirmRequest env.confirmLine with
  | some e => exact ⟨_, rfl⟩
  | none =>
    cases env.tempDirOk with
    | false => exact ⟨_, rfl⟩
    | true =>
      cases env.writeOk with
      | false => exact ⟨_, rfl⟩
      | true =>
        cases env.keygenOk with
        | false => exact ⟨_, rfl⟩
        | true =>
          rcases hN : NewPublicKey lib env.certRead with ⟨o1, o2⟩
          cases o1 <;> cases o2 <;> exact ⟨_, rfl⟩

/-- Counterexample to claim C10 as stated: a server-side SignPublicKey
call on a request whose key bytes do not parse does not panic. The
mustParse panic is raised inside the SignArgs Stringer, fmt.Println
recovers String-method panics and prints the PANIC placeholder as the
request summary, and the call then proceeds normally: at this concrete
input (confirmation given, staging fine, ssh-keygen failing on the
bad key) it returns the generic signing error, not a panic and not a
typed parse error. -/
theorem signPublicKey_no_panic_counterexample :
    Server.SignPublicKey (fun _ => none) (fun _ => [])
        { PrivateKeyPath := "/ca".data,
          PublicKey := { key := none, Data := "capub".data },
          SkipConfirmation := false }
        { Identity := "id".data, CertificateType := false,
          Principals := ["alice".data],
          PublicKey := { key := none, Data := "bad key".data } }
        { confirmLine := some "".data, tempDirOk := true, writeOk := true,
          keygenOk := false, certRead := none } =
      ("%!v(PANIC=String method: invalid uninitialized public key)".data,
        Except.ok (SignOutcome.errored SignError.signingFailed)) ∧
    SignArgs.summary (fun _ => none) (fun _ => [])
        { Identity := "id".data, CertificateType := false,
          Principals := ["alice".data],
          PublicKey := { key := none, Data := "bad key".data } } =
      Except.error "invalid uninitialized public key".data := by
  exact ⟨rfl, rfl⟩

/-- Claim C10 as amended: on a request whose transmitted key bytes do
not parse, mustParse does panic while the request summary is built,
but fmt.Println recovers String-method panics, so the printed summary
is the PANIC placeholder and SignPublicKey itself neither panics nor
returns a typed parse error: it continues into confirmation and the
signing flow and returns whatever typed result that flow produces. -/
theorem signPublicKey_recovers_string_panic
    (lib : Bytes → Option SSHKey) (fp : SSHKey → Bytes) (ca : Server)
    (args : SignArgs) (env : SignEnv)
    (hkey : args.PublicKey.key = none)
    (hlib : lib args.PublicKey.Data = none) :
    args.summary lib fp = Except.error "invalid uninitialized public key".data ∧
    (Server.SignPublicKey lib fp ca args env).1 =
      "%!v(PANIC=String method: invalid uninitialized public key)".data ∧
    ∃ o, (Server.SignPublicKey lib fp ca args env).2 = Except.ok o := by
  have hsum : args.summary lib fp =
      Except.error "invalid uninitialized public key".data := by
    simp only [SignArgs.summary, PublicKey.typeString, PublicKey.mustParse,
      PublicKey.parse, hkey, hlib, Except.map]
  refine ⟨hsum, ?_, signPublicKey_snd_ok lib fp ca args env⟩
  rw [signPublicKey_fst, hsum]
  rfl

/-- Witness for C10 as amended at a concrete input (host certificate,
confirmation skipped, successful tool run, unreadable certificate
file). -/
theorem signPublicKey_recovers_string_panic_witness :
    SignArgs.summary (fun _ => none) (fun _ => [])
        { Identity := "h1".data, CertificateType := true, Principals := [],
          PublicKey := { key := none, Data := "broken".data } } =
      Except.error "invalid uninitialized public key".data ∧
    (Server.SignPublicKey (fun _ => none) (fun _ => [])
        { PrivateKeyPath := "/ca".data,
          PublicKey := { key := none, Data := "capub".data },
          SkipConfirmation := true }
        { Identity := "h1".data, CertificateType := true, Principals := [],
          PublicKey := { key := none, Data := "broken".data } }
        { confirmLine := none, tempDirOk := true, writeOk := true,
          keygenOk := true, certRead := none }).1 =
      "%!v(PANIC=String method: invalid uninitialized public key)".data ∧
    ∃ o, (Server.SignPublicKey (fun _ => none) (fun _ => [])
        { PrivateKeyPath := "/ca".data,
          PublicKey := { key := none, Data := "capub".data },
          SkipConfirmation := true }
        { Identity := "h1".data, CertificateType := true, Principals := [],
          PublicKey := { key := none, Data := "broken".data } }
        { confirmLine := none, tempDirOk := true, writeOk := true,
          keygenOk := true, certRead := none }).2 = Except.ok o :=
  signPublicKey_recovers_string_panic (fun _ => none) (fun _ => []) _ _ _ rfl rfl
